import Mathlib

/-
Verification of the dividend retrieval/caching pipeline and the
sentiment-to-stake workflow of the TAO Dividend Sentiment Service.

The definitions below are a shallow embedding of the Python sources:
  app/api/v1/routes.py        (get_tao_dividends and its helpers)
  app/core/auth.py            (verify_token)
  app/tasks/background_tasks.py (store_dividends_batch_task,
                                 process_sentiment_and_stake)
  app/services/chutes.py      (extract_sentiment_score)
  app/services/staking.py     (submit_stake_adjustment)

Modelling conventions:
  - Float dividend amounts and stake amounts are modelled as rationals.
  - The redis cache is a partial map from key strings to stored numeric
    values; a key being present models an unexpired (within-TTL) entry,
    and redis GET returning a nonempty byte string is truthy, so a hit
    is exactly "key present".
  - External calls that may raise are modelled with Option: a result of
    none is the call raising (the call sites catch the exception).
-/

namespace TaoService

/-- Python values that can appear in the `dividend` position of a response
row in `get_tao_dividends`: a numeric amount from the registry, the literal
`True` written in the cache-hit branch (routes.py line 156), or the empty
dict `{}` produced by `res.get(netuid, {}).get(hotkey, {})` when the
requested hotkey is absent from the fetched map. -/
inductive PyVal where
  | num (q : ℚ)
  | pyBool (b : Bool)
  | emptyDict
deriving DecidableEq, Repr

/-- The shared redis TTL cache: a key maps to the stored numeric value.
A present key models an unexpired entry (redis GET of a stored float repr
is a nonempty byte string, hence truthy). -/
def Cache : Type := String → Option ℚ

/-- redis SETEX on a numeric value: overwrite the single given key. -/
def Cache.set (c : Cache) (k : String) (v : ℚ) : Cache :=
  fun k' => if k' = k then some v else c k'

/-- A cache with no (unexpired) entries. -/
def emptyCache : Cache := fun _ => none

/-- The registry gateway (BitTensorService): `allNetuids` models
`get_all_netuids` (none = the call raised, caught at the call site);
`dividends n` models `get_dividends_for_all_hot_keys(netuid=n)` as the
dict items of `tao_dividends_per_hotkey` (none = the call raised). -/
structure Registry where
  allNetuids : Option (List Int)
  dividends : Int → Option (List (String × ℚ))

/-- routes.py `get_hotkeys_and_dividends_for_netuid`: returns
`{netuid: dict(dividends)}` or None when the registry call raises. -/
def get_hotkeys_and_dividends_for_netuid (reg : Registry) (netuid : Int) :
    Option (Int × List (String × ℚ)) :=
  (reg.dividends netuid).map fun d => (netuid, d)

/-- routes.py `get_hotkeys_and_dividends_for_all_netuids_threadpool`:
one fetch per netuid on the worker pool; a failing netuid contributes
no entry (the None results are skipped by the `.update` loop). -/
def get_hotkeys_and_dividends_for_all_netuids_threadpool (reg : Registry)
    (netuids : List Int) : List (Int × List (String × ℚ)) :=
  netuids.filterMap (get_hotkeys_and_dividends_for_netuid reg)

/-- One element of the `result` list of the response envelope. -/
structure ResponseRow where
  netuid : Int
  hotkey : String
  dividend : PyVal
  stake_tx_triggered : Bool
  cached : Bool
deriving DecidableEq, Repr

/-- The response envelope `{success, msg, result}`; `msg = ""` models the
`msg` key being absent. -/
structure Envelope where
  success : Bool
  msg : String
  result : List ResponseRow
deriving DecidableEq, Repr

/-- Observable outcome of one call to the endpoint body: the returned
envelope, the redis cache after the call, and the `dividends_to_store`
batch handed to `store_dividends_batch_task.delay` (empty when the
early no-data return or the catch-all except path is taken). -/
structure EndpointOutput where
  envelope : Envelope
  cache : Cache
  storedBatch : List (Int × String × PyVal)

/-- The redis key `f'{netuid}:{hotkey}'` of routes.py line 153. -/
def cacheKey (netuid : Int) (hotkey : String) : String :=
  toString netuid ++ ":" ++ hotkey

/-- The double loop of routes.py lines 178-192 building `response_items`
from `netuid_hotkeys_dividends`. -/
def buildRows (nhd : List (Int × List (String × PyVal))) (trade cached : Bool) :
    List ResponseRow :=
  nhd.flatMap fun p => p.2.map fun e => ⟨p.1, e.1, e.2, trade, cached⟩

/-- The text of the redis-py DataError raised when `setex` is given the
dict value `{}` (routes.py line 170 with an empty `dividend`): redis-py
accepts only bytes, strings, ints and floats as values. -/
def dataErrorMsg : String :=
  "Invalid input of type: dict. Convert to a bytes, string, int or float first."

/-- The tail of the endpoint shared by all non-raising paths: the
`if not netuid_hotkeys_dividends` early return (routes.py lines 172-174)
followed by row building and the batch enqueue. -/
def respond (cache' : Cache) (nhd : List (Int × List (String × PyVal)))
    (msg : String) (trade cached : Bool) : EndpointOutput :=
  if nhd.isEmpty then
    ⟨⟨false, msg, []⟩, cache', []⟩
  else
    let rows := buildRows nhd trade cached
    ⟨⟨true, "", rows⟩, cache', rows.map fun r => (r.netuid, r.hotkey, r.dividend)⟩

/-- routes.py `get_tao_dividends` (lines 100-213), as a function of the
registry, the cache state, and the query parameters.  `netuid = none`
models the query parameter being omitted (FastAPI default None); an
omitted hotkey is the empty string (its default).  The three branches:
no netuid → fetch every subnet; netuid without hotkey → fetch that one
subnet; both → cache-then-registry single-key lookup.  In the cache-hit
branch the code overwrites the variable holding the fetched value with
the literal True before placing it in the map (lines 155-157), so the
row's dividend is `pyBool true`.  In the miss branch, when the requested
hotkey is absent the `{}` placeholder reaches `redis.setex`, which
raises DataError; the catch-all at line 211 turns this into a
success=false envelope with an empty result. -/
def get_tao_dividends (reg : Registry) (cache : Cache) :
    Option Int → String → Bool → EndpointOutput
  | none, _hotkey, trade =>
    respond cache
      ((get_hotkeys_and_dividends_for_all_netuids_threadpool reg
          (reg.allNetuids.getD [])).map
        fun p => (p.1, p.2.map fun e => (e.1, PyVal.num e.2)))
      ("Dividends data not found for netuids: "
        ++ toString (reg.allNetuids.getD []))
      trade false
  | some n, hotkey, trade =>
    if hotkey = "" then
      respond cache
        (match reg.dividends n with
          | some m => [(n, m.map fun e => (e.1, PyVal.num e.2))]
          | none => [])
        ("Dividends data not found for hotkeys for netuid: " ++ toString n)
        trade false
    else
      match cache (cacheKey n hotkey) with
      | some _ =>
        respond cache [(n, [(hotkey, PyVal.pyBool true)])] "" trade true
      | none =>
        match reg.dividends n with
        | none =>
          ⟨⟨false, "No data found for netuid: " ++ toString n, []⟩, cache, []⟩
        | some m =>
          match m.lookup hotkey with
          | some q =>
            respond (cache.set (cacheKey n hotkey) q)
              [(n, [(hotkey, PyVal.num q)])] "" trade false
          | none =>
            ⟨⟨false, dataErrorMsg, []⟩, cache, []⟩

/-- auth.py `verify_token`: true iff the Authorization header equals
`Bearer <api_key>`; false models the HTTP 401 being raised. -/
def verify_token (api_key authorization : String) : Bool :=
  authorization = "Bearer " ++ api_key

/-- The routing layer around the read endpoint, producing the HTTP status
and, on success, the envelope.  `authorization = none` is a request with
no Authorization header: `Header(...)` in auth.py line 14 declares the
header required with no default, so FastAPI rejects such a request with
its request-validation status 422 before `verify_token` runs; a present
but mismatched header makes `verify_token` raise 401. -/
def tao_dividends_request (api_key : String) (authorization : Option String)
    (reg : Registry) (cache : Cache) (netuid : Option Int) (hotkey : String)
    (trade : Bool) : Nat × Option Envelope :=
  match authorization with
  | none => (422, none)
  | some a =>
    if verify_token api_key a then
      (200, some (get_tao_dividends reg cache netuid hotkey trade).envelope)
    else (401, none)

/-- One element of the `dividends_data` list handed to the batch task: a
dict whose keys mirror the columns of the `dividends` table.  A field of
none models the key being absent / the value being None; `netuid`,
`hotkey` and `amount` are nullable=False columns, so a missing one makes
the insert fail inside the task's try block. -/
structure RawDividend where
  netuid : Option Int
  hotkey : Option String
  amount : Option ℚ
  timestamp : Option Nat
deriving DecidableEq, Repr

/-- A persisted row of the `dividends` table. -/
structure DividendRow where
  netuid : Int
  hotkey : String
  amount : ℚ
  timestamp : Nat
deriving DecidableEq, Repr

/-- A raw dict that cannot be persisted: one of the nullable=False
columns has no value, so building/committing the `Dividend` object
raises inside the task's try block. -/
def malformed (r : RawDividend) : Bool :=
  r.netuid.isNone || r.hotkey.isNone || r.amount.isNone

/-- The well-formed image of a raw dict, with the task's
`datetime.utcnow()` default filled in for a missing timestamp
(the `timestamp_field` handling of background_tasks.py lines 82-83). -/
def stripRow (now : Nat) (r : RawDividend) : DividendRow :=
  ⟨r.netuid.getD 0, r.hotkey.getD "", r.amount.getD 0, r.timestamp.getD now⟩

/-- The object-building loop of background_tasks.py lines 76-85: the
whole list of `Dividend` objects, or none when any row fails. -/
def buildDividendObjects (now : Nat) : List RawDividend → Option (List DividendRow)
  | [] => some []
  | r :: rest =>
    if malformed r then none
    else (buildDividendObjects now rest).map fun t => stripRow now r :: t

/-- background_tasks.py `store_dividends_batch_task`: one session, all
rows added with `add_all` and committed in one transaction; any failure
is caught and the transaction rolled back, leaving the table unchanged
(`db` is the table contents before the task runs). -/
def store_dividends_batch_task (db : List DividendRow) (rows : List RawDividend)
    (now : Nat) : List DividendRow :=
  match buildDividendObjects now rows with
  | some objs => db ++ objs
  | none => db

/-- Python int() on a string of decimal digits. -/
def digitsToNat (l : List Char) : Nat :=
  l.foldl (fun acc c => acc * 10 + (c.toNat - 48)) 0

/-- The leftmost match of the regex used by chutes.py line 87 (an
optional minus sign directly followed by one or more digits), converted
with Python's int().  Scans positions left to right exactly as
re.search does: a digit starts a match; a minus sign starts a match
only when directly followed by a digit. -/
def firstIntMatch : List Char → Option Int
  | [] => none
  | c :: rest =>
    if c.isDigit then
      some (Int.ofNat (digitsToNat (c :: rest.takeWhile Char.isDigit)))
    else if c = '-' then
      match rest with
      | [] => none
      | d :: _ =>
        if d.isDigit then
          some (-(Int.ofNat (digitsToNat (rest.takeWhile Char.isDigit))))
        else firstIntMatch rest
    else firstIntMatch rest

/-- chutes.py `extract_sentiment_score`: the content argument is
`response['choices'][0]['message']['content']`; none models the lookup
raising (KeyError and friends, caught and turned into None) or the API
call itself having failed in `get_sentiment`.  On a string, the score is
the first integer found by `re.search(r"(-?\d+)", content)`. -/
def extract_sentiment_score (content : Option String) : Option Int :=
  content.bind fun s => firstIntMatch s.data

/-- Outcome of the external stake/unstake submission inside
staking.py's try blocks: the call returned a value of the given
truthiness, or it raised (success is then set to False). -/
inductive SubmitOutcome where
  | ok (res : Bool)
  | raises
deriving DecidableEq, Repr

/-- The stake/unstake call made against the registry, with the amount
passed to `Balance.from_tao`. -/
inductive StakeAction where
  | stake (amount : ℚ)
  | unstake (amount : ℚ)
deriving DecidableEq, Repr

/-- The `sentiment_data` dict persisted as a `SentimentStakeOperation`
row (staking.py lines 105-112); `amount` is the signed `0.1 * score`. -/
structure SentimentStakeOperation where
  netuid : Int
  hotkey : String
  sentiment_score : Int
  amount : ℚ
  operation : String
  status : String
deriving DecidableEq, Repr

/-- staking.py `submit_stake_adjustment`: computes `amount = 0.1 *
sentiment_score` (float arithmetic modelled exactly over ℚ; at the
integer scores named by the spec the double values coincide with the
rationals), stakes for positive scores, unstakes `abs(amount)` for
negative ones, returns without persisting anything for score 0, and
otherwise records one row whose status is completed iff the external
call returned a truthy value.  Result: (the call submitted, the row
persisted by `stake_store_async`). -/
def submit_stake_adjustment (outcome : SubmitOutcome) (sentiment_score : Int)
    (netuid : Int) (hotkey : String) :
    Option StakeAction × Option SentimentStakeOperation :=
  let amount : ℚ := (1 / 10) * (sentiment_score : ℚ)
  if 0 < sentiment_score then
    let success := match outcome with | .ok r => r | .raises => false
    (some (.stake amount),
      some ⟨netuid, hotkey, sentiment_score, amount, "stake",
        if success then "completed" else "failed"⟩)
  else if sentiment_score < 0 then
    let success := match outcome with | .ok r => r | .raises => false
    (some (.unstake (abs amount)),
      some ⟨netuid, hotkey, sentiment_score, amount, "unstake",
        if success then "completed" else "failed"⟩)
  else
    (none, none)

/-- The external inputs of one sentiment-stake workflow run: the fetched
tweets (`get_tweets` returns a list, or None on error, both covered by
the empty list being falsy), the textual LLM reply content (none when
the scoring call failed or the response lacked the expected keys), and
the outcome of the eventual stake/unstake submission. -/
structure WorkflowEnv where
  tweets : List String
  llmContent : Option String
  outcome : SubmitOutcome

/-- background_tasks.py `process_sentiment_and_stake`: abort on empty
tweets, abort on a missing sentiment score, abort on a score outside
[-100, 100], and otherwise hand over to `submit_stake_adjustment`. -/
def process_sentiment_and_stake (env : WorkflowEnv) (netuid : Int) (hotkey : String) :
    Option StakeAction × Option SentimentStakeOperation :=
  if env.tweets.isEmpty then (none, none)
  else
    match extract_sentiment_score env.llmContent with
    | none => (none, none)
    | some score =>
      if score < -100 ∨ 100 < score then (none, none)
      else submit_stake_adjustment env.outcome score netuid hotkey

/-! Concrete registries used to evaluate the endpoint at specific inputs. -/

/-- A registry with one subnet 1 whose dividend map is `{hk: 5}`. -/
def regC1 : Registry :=
  ⟨some [1], fun n => if n = 1 then some [("hk", 5)] else none⟩

/-- A registry with one subnet 1 whose dividend map is `{other: 3}`:
the hotkey "hk" is absent from it. -/
def regC9 : Registry :=
  ⟨some [1], fun n => if n = 1 then some [("other", 3)] else none⟩

/-- A registry with two subnets 0 and 1, each with one hotkey. -/
def regC6 : Registry :=
  ⟨some [0, 1], fun n =>
    if n = 0 then some [("a", 1)] else if n = 1 then some [("b", 2)] else none⟩

/-- A registry whose every fetch fails. -/
def regC8w : Registry := ⟨some [3], fun _ => none⟩

/-- C1: the code violates the claim.  At the concrete input (netuid 1,
hotkey "hk", registry map {hk: 5}, empty cache), the first query returns
the amount 5 with cached=false and stores it under the key "1:hk"; the
second identical query within the TTL window takes the cache-hit branch,
where routes.py line 156 overwrites the variable holding the fetched
cache value with the literal True before line 157 places it in the map,
so the returned row is cached=true with dividend True — not the amount 5
returned by the first query. -/
theorem c1_cache_hit_returns_true_not_amount :
    (get_tao_dividends regC1 emptyCache (some 1) "hk" false).envelope.result
      = [⟨1, "hk", .num 5, false, false⟩] ∧
    (get_tao_dividends regC1
        (get_tao_dividends regC1 emptyCache (some 1) "hk" false).cache
        (some 1) "hk" false).envelope.result
      = [⟨1, "hk", .pyBool true, false, true⟩] :=
  ⟨rfl, rfl⟩

/-- C2: the decide step.  For every sentiment score in [-100, 100]:
a positive score submits a stake of 0.1 * score, a negative score
submits an unstake of abs(0.1 * score), and a zero score submits
nothing and persists no row. -/
theorem c2_decide_step (outcome : SubmitOutcome) (score netuid : Int) (hotkey : String)
    (hlo : -100 ≤ score) (hhi : score ≤ 100) :
    (0 < score →
      (submit_stake_adjustment outcome score netuid hotkey).1
        = some (.stake ((1 / 10 : ℚ) * (score : ℚ)))) ∧
    (score < 0 →
      (submit_stake_adjustment outcome score netuid hotkey).1
        = some (.unstake (abs ((1 / 10 : ℚ) * (score : ℚ))))) ∧
    (score = 0 → submit_stake_adjustment outcome score netuid hotkey = (none, none)) := by
  unfold submit_stake_adjustment
  refine ⟨fun h => ?_, fun h => ?_, fun h => ?_⟩
  · rw [if_pos h]
  · rw [if_neg (by omega), if_pos h]
  · subst h
    rw [if_neg (by omega), if_neg (by omega)]

/-- C2 witness: score 100 stakes 10.0, score -50 unstakes 5.0, score 0
does nothing. -/
theorem c2_decide_step_witness :
    (submit_stake_adjustment (.ok true) 100 1 "hk").1 = some (.stake 10) ∧
    (submit_stake_adjustment (.ok true) (-50) 1 "hk").1 = some (.unstake 5) ∧
    submit_stake_adjustment (.ok true) 0 1 "hk" = (none, none) := by
  refine ⟨?_, ?_, ?_⟩
  · rw [(c2_decide_step (.ok true) 100 1 "hk" (by decide) (by decide)).1 (by decide)]
    simp only [Option.some.injEq, StakeAction.stake.injEq]
    norm_num
  · rw [(c2_decide_step (.ok true) (-50) 1 "hk" (by decide) (by decide)).2.1 (by decide)]
    simp only [Option.some.injEq, StakeAction.unstake.injEq]
    rw [abs_of_nonpos (by norm_num)]
    norm_num
  · exact (c2_decide_step (.ok true) 0 1 "hk" (by decide) (by decide)).2.2 rfl

/-- C9: the code violates the claim.  At the concrete input (netuid 1,
hotkey "hk") with the freshly fetched map {other: 3} lacking "hk", the
code builds the row with the `{}` placeholder and the not-found message,
but then passes `{}` to `redis.setex` (routes.py line 170), which
redis-py rejects with a DataError; the catch-all at line 211 returns a
success=false envelope whose result list is empty and whose message is
the exception text — no row with an empty/zero amount and no not-found
indicator reaches the caller. -/
theorem c9_absent_key_yields_no_row :
    (get_tao_dividends regC9 emptyCache (some 1) "hk" false).envelope
      = ⟨false, dataErrorMsg, []⟩ :=
  rfl

/-- C6 counterexample: with netuid=0 supplied, the code takes the
`elif not hotkey` branch (it only tests `netuid is None`), fetching
subnet 0 alone: although the registry lists subnets [0, 1], the response
holds only subnet 0's row, so a zero netuid does not cover all subnets. -/
theorem c6_netuid_zero_not_all_subnets :
    regC6.allNetuids = some [0, 1] ∧
    (get_tao_dividends regC6 emptyCache (some 0) "" false).envelope.result
      = [⟨0, "a", .num 1, false, false⟩] :=
  ⟨rfl, rfl⟩

/-- C7 counterexample: a request with no Authorization header at all is
rejected by FastAPI's validation of the required `Header(...)` parameter
with status 422, not 401. -/
theorem c7_missing_header_not_401 :
    (tao_dividends_request "secret" none regC8w emptyCache (some 1) "hk" false).1 = 422 ∧
    (tao_dividends_request "secret" none regC8w emptyCache (some 1) "hk" false).1 ≠ 401 :=
  ⟨rfl, by decide⟩

/-- C7 amended: every request that supplies an Authorization header not
equal to `Bearer <secret>` receives status 401, regardless of the query
parameters and of the registry/cache state; a request with the header
missing entirely is instead rejected by request validation (422). -/
theorem c7_mismatched_token_always_401 (api_key a : String) (reg : Registry)
    (cache : Cache) (netuid : Option Int) (hotkey : String) (trade : Bool)
    (h : a ≠ "Bearer " ++ api_key) :
    (tao_dividends_request api_key (some a) reg cache netuid hotkey trade).1 = 401 := by
  simp [tao_dividends_request, verify_token, h]

/-- C7 witness: a concrete wrong token gets 401 whatever the query. -/
theorem c7_mismatched_token_witness :
    (tao_dividends_request "secret" (some "Bearer nope") regC8w emptyCache
      none "" true).1 = 401 :=
  c7_mismatched_token_always_401 "secret" "Bearer nope" regC8w emptyCache
    none "" true (by decide)

/-- C3: every workflow run that reaches the submit step (nonempty
tweets, an extracted score that is nonzero and within [-100, 100])
persists exactly one SentimentStakeOperation row — the second component
of the result is `some` of a single row, even when the submission raises
or returns a falsy value — and its status is "completed" exactly when
the external stake/unstake call returned a truthy value, "failed"
otherwise. -/
theorem c3_one_row_reflecting_outcome (env : WorkflowEnv) (netuid : Int)
    (hotkey : String) (score : Int)
    (htw : env.tweets ≠ [])
    (hsc : extract_sentiment_score env.llmContent = some score)
    (hlo : -100 ≤ score) (hhi : score ≤ 100) (hnz : score ≠ 0) :
    ∃ rec, (process_sentiment_and_stake env netuid hotkey).2 = some rec ∧
      rec.status = (if env.outcome = SubmitOutcome.ok true then "completed"
        else "failed") := by
  obtain ⟨tws, content, outc⟩ := env
  unfold process_sentiment_and_stake
  cases tws with
  | nil => exact absurd rfl htw
  | cons a t =>
    simp only [List.isEmpty_cons, Bool.false_eq_true, if_false, hsc]
    rw [if_neg (by omega : ¬(score < -100 ∨ 100 < score))]
    unfold submit_stake_adjustment
    rcases lt_or_gt_of_ne hnz with hneg | hpos
    · rw [if_neg (by omega), if_pos hneg]
      refine ⟨_, rfl, ?_⟩
      cases outc with
      | ok r => cases r <;> rfl
      | raises => rfl
    · rw [if_pos hpos]
      refine ⟨_, rfl, ?_⟩
      cases outc with
      | ok r => cases r <;> rfl
      | raises => rfl

/-- C3 witness: a run with tweets present, reply "42" and a raising
submission still persists one row, with status failed. -/
theorem c3_one_row_witness :
    ∃ rec, (process_sentiment_and_stake ⟨["t"], some "42", .raises⟩ 1 "hk").2
        = some rec ∧
      rec.status = (if SubmitOutcome.raises = SubmitOutcome.ok true then "completed"
        else "failed") :=
  c3_one_row_reflecting_outcome ⟨["t"], some "42", .raises⟩ 1 "hk" 42
    (by decide) (by decide) (by decide) (by decide) (by decide)

/-- A reply containing no digit character contains no match of the
regex `-?\d+`, so the scan returns none. -/
theorem firstIntMatch_eq_none_of_no_digit (l : List Char)
    (h : ∀ c ∈ l, c.isDigit = false) : firstIntMatch l = none := by
  induction l with
  | nil => rfl
  | cons c rest ih =>
    have hc := h c (List.mem_cons_self c rest)
    have hrest : ∀ x ∈ rest, x.isDigit = false :=
      fun x hx => h x (List.mem_cons_of_mem c hx)
    unfold firstIntMatch
    rw [hc]
    simp only [Bool.false_eq_true, if_false]
    by_cases hm : c = '-'
    · rw [if_pos hm]
      cases rest with
      | nil => rfl
      | cons d t =>
        show (if d.isDigit = true
            then some (-Int.ofNat (digitsToNat (List.takeWhile Char.isDigit (d :: t))))
            else firstIntMatch (d :: t)) = none
        rw [hrest d (List.mem_cons_self d t)]
        simp only [Bool.false_eq_true, if_false]
        exact ih hrest
    · rw [if_neg hm]
      exact ih hrest

/-- C4: the sentiment step parses the first integer of the reply; when
the reply contains no integer at all (no digit character), and when the
extracted score lies outside [-100, 100], the workflow run aborts:
nothing is submitted to the registry and no row is persisted. -/
theorem c4_abort_on_unparsable_or_out_of_range (env : WorkflowEnv)
    (netuid : Int) (hotkey : String) :
    ((∀ s, env.llmContent = some s → ∀ c ∈ s.data, c.isDigit = false) →
        process_sentiment_and_stake env netuid hotkey = (none, none)) ∧
    (∀ score, extract_sentiment_score env.llmContent = some score →
        (score < -100 ∨ 100 < score) →
        process_sentiment_and_stake env netuid hotkey = (none, none)) := by
  obtain ⟨tws, content, outc⟩ := env
  constructor
  · intro h
    have hext : extract_sentiment_score content = none := by
      cases content with
      | none => rfl
      | some s =>
        unfold extract_sentiment_score
        simp only [Option.some_bind]
        exact firstIntMatch_eq_none_of_no_digit s.data (h s rfl)
    unfold process_sentiment_and_stake
    cases tws with
    | nil => rfl
    | cons a t => simp [hext]
  · intro score hsc hrange
    unfold process_sentiment_and_stake
    cases tws with
    | nil => rfl
    | cons a t =>
      simp only at hsc
      simp only [List.isEmpty_cons, Bool.false_eq_true, if_false, hsc]
      rw [if_pos hrange]

/-- C4 witness: a digit-free reply aborts the run, and a reply whose
first integer is 150 (out of range) aborts the run. -/
theorem c4_abort_witness :
    process_sentiment_and_stake ⟨["t"], some "abc", .ok true⟩ 1 "hk" = (none, none) ∧
    process_sentiment_and_stake ⟨["t"], some "150", .ok true⟩ 1 "hk" = (none, none) :=
  ⟨(c4_abort_on_unparsable_or_out_of_range ⟨["t"], some "abc", .ok true⟩ 1 "hk").1
      (by intro s hs; cases hs; decide),
    (c4_abort_on_unparsable_or_out_of_range ⟨["t"], some "150", .ok true⟩ 1 "hk").2
      150 (by decide) (by decide)⟩

/-- When every raw dict of the batch is well formed, the builder
produces exactly the corresponding Dividend objects. -/
theorem buildDividendObjects_of_wellformed (now : Nat) (rows : List RawDividend)
    (h : ∀ r ∈ rows, malformed r = false) :
    buildDividendObjects now rows = some (rows.map (stripRow now)) := by
  induction rows with
  | nil => rfl
  | cons r rest ih =>
    unfold buildDividendObjects
    rw [h r (List.mem_cons_self r rest)]
    simp only [Bool.false_eq_true, if_false]
    rw [ih fun x hx => h x (List.mem_cons_of_mem r hx)]
    rfl

/-- Whatever list of objects the builder returns is the full image of
the batch: the builder never drops or alters rows. -/
theorem buildDividendObjects_eq_map (now : Nat) (rows : List RawDividend)
    (objs : List DividendRow) (h : buildDividendObjects now rows = some objs) :
    objs = rows.map (stripRow now) := by
  induction rows generalizing objs with
  | nil =>
    simp only [buildDividendObjects, Option.some.injEq] at h
    simp [← h]
  | cons r rest ih =>
    unfold buildDividendObjects at h
    by_cases hm : malformed r = true
    · rw [if_pos hm] at h
      exact absurd h (by simp)
    · rw [if_neg hm] at h
      cases hrec : buildDividendObjects now rest with
      | none => rw [hrec] at h; simp at h
      | some t =>
        rw [hrec] at h
        simp only [Option.map_some', Option.some.injEq] at h
        rw [List.map_cons, ← ih t hrec, ← h]

/-- A batch holding a malformed row makes the builder fail. -/
theorem buildDividendObjects_of_malformed (now : Nat) (rows : List RawDividend)
    (h : ∃ r ∈ rows, malformed r = true) :
    buildDividendObjects now rows = none := by
  induction rows with
  | nil => rcases h with ⟨r, hr, _⟩; cases hr
  | cons a rest ih =>
    unfold buildDividendObjects
    rcases h with ⟨r, hr, hm⟩
    rcases List.mem_cons.mp hr with rfl | hr'
    · rw [if_pos hm]
    · by_cases ha : malformed a = true
      · rw [if_pos ha]
      · rw [if_neg ha, ih ⟨r, hr', hm⟩]
        rfl

/-- C5: batch persistence is atomic.  For every prior table state and
every submitted batch: the table after the task is either unchanged or
extended by the whole batch (never a strict part of it); a batch with
any malformed row (a nullable=False column missing) leaves the table
exactly as it was — zero rows of the batch appear; and a batch of only
well-formed rows is inserted in full, in one transaction. -/
theorem c5_batch_all_or_nothing (db : List DividendRow) (rows : List RawDividend)
    (now : Nat) :
    (store_dividends_batch_task db rows now = db ∨
      store_dividends_batch_task db rows now = db ++ rows.map (stripRow now)) ∧
    ((∃ r ∈ rows, malformed r = true) →
      store_dividends_batch_task db rows now = db) ∧
    ((∀ r ∈ rows, malformed r = false) →
      store_dividends_batch_task db rows now = db ++ rows.map (stripRow now)) := by
  refine ⟨?_, fun h => ?_, fun h => ?_⟩
  · unfold store_dividends_batch_task
    cases hb : buildDividendObjects now rows with
    | none => exact Or.inl rfl
    | some objs =>
      exact Or.inr (by rw [buildDividendObjects_eq_map now rows objs hb])
  · unfold store_dividends_batch_task
    rw [buildDividendObjects_of_malformed now rows h]
  · unfold store_dividends_batch_task
    rw [buildDividendObjects_of_wellformed now rows h]

/-- C5 witness: a two-row batch whose second row lacks its hotkey
inserts nothing at all; a well-formed one-row batch is inserted whole. -/
theorem c5_batch_witness :
    store_dividends_batch_task []
      [⟨some 1, some "a", some 2, none⟩, ⟨some 2, none, some 3, none⟩] 99 = [] ∧
    store_dividends_batch_task [] [⟨some 1, some "a", some 2, none⟩] 99
      = [⟨1, "a", 2, 99⟩] := by
  constructor
  · exact (c5_batch_all_or_nothing [] _ 99).2.1
      ⟨⟨some 2, none, some 3, none⟩, by decide, rfl⟩
  · rw [(c5_batch_all_or_nothing [] _ 99).2.2 (by decide)]
    decide

/-- Every entry of a nonempty collected mapping yields its row in the
response built by the shared endpoint tail. -/
theorem mem_respond_result (cache' : Cache) (nhd : List (Int × List (String × PyVal)))
    (msg : String) (trade cached : Bool) (p : Int × List (String × PyVal))
    (hp : p ∈ nhd) (e : String × PyVal) (he : e ∈ p.2) :
    (⟨p.1, e.1, e.2, trade, cached⟩ : ResponseRow)
      ∈ (respond cache' nhd msg trade cached).envelope.result := by
  have hne : nhd ≠ [] := by rintro rfl; cases hp
  unfold respond
  rw [if_neg (by simp [List.isEmpty_iff, hne])]
  exact List.mem_flatMap.mpr ⟨p, hp, List.mem_map.mpr ⟨e, he, rfl⟩⟩

/-- C6 amended: with netuid omitted, the coordinator enumerates
listAllSubnets and fetches every subnet's dividend map, so every entry
of every successfully fetched subnet appears in the response (whatever
the hotkey parameter, which this branch ignores); with netuid supplied —
including netuid 0, which the code treats like any other specific subnet,
not as "all subnets" — and hotkey omitted, the response holds exactly the
full validator map of that one subnet. -/
theorem c6_coverage (reg : Registry) (cache : Cache) (trade : Bool) :
    (∀ (hk0 : String) (ns : List Int) (n : Int) (m : List (String × ℚ))
        (hk : String) (q : ℚ),
        reg.allNetuids = some ns → n ∈ ns → reg.dividends n = some m →
        (hk, q) ∈ m →
        (⟨n, hk, .num q, trade, false⟩ : ResponseRow)
          ∈ (get_tao_dividends reg cache none hk0 trade).envelope.result) ∧
    (∀ (n : Int) (m : List (String × ℚ)), reg.dividends n = some m →
        (get_tao_dividends reg cache (some n) "" trade).envelope.result
          = m.map fun e => ⟨n, e.1, .num e.2, trade, false⟩) := by
  constructor
  · intro hk0 ns n m hk q hns hn hm hp
    have h1 : (n, m) ∈ get_hotkeys_and_dividends_for_all_netuids_threadpool reg ns :=
      List.mem_filterMap.mpr ⟨n, hn, by
        unfold get_hotkeys_and_dividends_for_netuid
        rw [hm]
        rfl⟩
    have h2 : ((n, m.map fun e => (e.1, PyVal.num e.2)) :
        Int × List (String × PyVal))
        ∈ (get_hotkeys_and_dividends_for_all_netuids_threadpool reg ns).map
          (fun p => (p.1, p.2.map fun e => (e.1, PyVal.num e.2))) :=
      List.mem_map.mpr ⟨(n, m), h1, rfl⟩
    have h3 := mem_respond_result cache _
      ("Dividends data not found for netuids: " ++ toString ns) trade false
      _ h2 (hk, PyVal.num q) (List.mem_map.mpr ⟨(hk, q), hp, rfl⟩)
    simp only [get_tao_dividends]
    rw [hns]
    exact h3
  · intro n m hm
    have hstep : get_tao_dividends reg cache (some n) "" trade
        = respond cache [(n, m.map fun e => (e.1, PyVal.num e.2))]
          ("Dividends data not found for hotkeys for netuid: " ++ toString n)
          trade false := by
      simp only [get_tao_dividends, if_true]
      rw [hm]
    rw [hstep]
    unfold respond
    rw [if_neg (by simp)]
    simp [buildRows, List.map_map]

/-- C6 witness: in the two-subnet registry, the netuid-omitted query
contains subnet 1's row, and the netuid=0 hotkey-omitted query returns
exactly subnet 0's full map. -/
theorem c6_coverage_witness :
    ((⟨1, "b", .num 2, false, false⟩ : ResponseRow)
        ∈ (get_tao_dividends regC6 emptyCache none "" false).envelope.result) ∧
    (get_tao_dividends regC6 emptyCache (some 0) "" false).envelope.result
        = [("a", (1 : ℚ))].map fun e => ⟨0, e.1, .num e.2, false, false⟩ :=
  ⟨(c6_coverage regC6 emptyCache false).1 "" [0, 1] 1 [("b", 2)] "b" 2
      rfl (by decide) (by decide) (by decide),
    (c6_coverage regC6 emptyCache false).2 0 [("a", 1)] (by decide)⟩

/-- A registry with one subnet 7 whose fetch succeeds with an empty
dividend map. -/
def regC8 : Registry := ⟨some [7], fun n => if n = 7 then some [] else none⟩

/-- C8 counterexample: when subnet 7's fetch succeeds but yields an
empty dividend map, no dividend data is obtained for any requested unit,
yet the collected mapping `{7: {}}` is truthy, so the endpoint returns
success=true with an empty result list and no message — not the
success=false envelope the claim requires for every no-data query. -/
theorem c8_empty_map_gives_success_true :
    (get_tao_dividends regC8 emptyCache (some 7) "" false).envelope
      = ⟨true, "", []⟩ :=
  rfl

/-- A nonempty string prefix keeps a concatenation nonempty. -/
theorem append_ne_empty_of_left (a b : String) (h : a.data ≠ []) :
    a ++ b ≠ "" := by
  intro hab
  apply h
  have hd := congrArg String.data hab
  rw [String.data_append] at hd
  exact (List.append_eq_nil.mp hd).1

/-- C8 amended: whenever the query obtains no subnet-level data at all —
netuid omitted and every listed subnet's fetch failing, netuid supplied
without hotkey and that subnet's fetch failing, or a single-key query
missing the cache with the subnet fetch failing or the hotkey absent
from the fetched map — the endpoint returns a success=false envelope
with an empty result list and a nonempty message, not an error status.
(A subnet fetch that succeeds with an empty validator map instead yields
success=true with an empty list, per the counterexample.) -/
theorem c8_no_data_envelope (reg : Registry) (cache : Cache) (netuid : Option Int)
    (hotkey : String) (trade : Bool)
    (h : (netuid = none ∧ ∀ n ∈ reg.allNetuids.getD [], reg.dividends n = none) ∨
      (∃ n, netuid = some n ∧ hotkey = "" ∧ reg.dividends n = none) ∨
      (∃ n, netuid = some n ∧ hotkey ≠ "" ∧ cache (cacheKey n hotkey) = none ∧
        (reg.dividends n = none ∨
          ∃ m, reg.dividends n = some m ∧ m.lookup hotkey = none))) :
    (get_tao_dividends reg cache netuid hotkey trade).envelope.success = false ∧
    (get_tao_dividends reg cache netuid hotkey trade).envelope.result = [] ∧
    (get_tao_dividends reg cache netuid hotkey trade).envelope.msg ≠ "" := by
  rcases h with ⟨rfl, hall⟩ | ⟨n, rfl, rfl, hdiv⟩ | ⟨n, rfl, hhk, hmiss, hrest⟩
  · have htp : get_hotkeys_and_dividends_for_all_netuids_threadpool reg
        (reg.allNetuids.getD []) = [] := by
      unfold get_hotkeys_and_dividends_for_all_netuids_threadpool
      rw [List.filterMap_eq_nil_iff]
      intro x hx
      unfold get_hotkeys_and_dividends_for_netuid
      rw [hall x hx]
      rfl
    have hstep : get_tao_dividends reg cache none hotkey trade
        = respond cache []
          ("Dividends data not found for netuids: "
            ++ toString (reg.allNetuids.getD [])) trade false := by
      simp only [get_tao_dividends]
      rw [htp]
      rfl
    rw [hstep]
    exact ⟨rfl, rfl, append_ne_empty_of_left _ _ (by decide)⟩
  · have hstep : get_tao_dividends reg cache (some n) "" trade
        = respond cache []
          ("Dividends data not found for hotkeys for netuid: " ++ toString n)
          trade false := by
      simp only [get_tao_dividends, if_true]
      rw [hdiv]
    rw [hstep]
    exact ⟨rfl, rfl, append_ne_empty_of_left _ _ (by decide)⟩
  · rcases hrest with hdiv | ⟨m, hdiv, hlook⟩
    · have hstep : get_tao_dividends reg cache (some n) hotkey trade
          = ⟨⟨false, "No data found for netuid: " ++ toString n, []⟩, cache, []⟩ := by
        simp only [get_tao_dividends]
        rw [if_neg hhk, hmiss, hdiv]
      rw [hstep]
      exact ⟨rfl, rfl, append_ne_empty_of_left _ _ (by decide)⟩
    · have hstep : get_tao_dividends reg cache (some n) hotkey trade
          = ⟨⟨false, dataErrorMsg, []⟩, cache, []⟩ := by
        simp only [get_tao_dividends]
        rw [if_neg hhk, hmiss, hdiv]
        show (match m.lookup hotkey with
          | some q => respond (cache.set (cacheKey n hotkey) q)
              [(n, [(hotkey, PyVal.num q)])] "" trade false
          | none => ⟨⟨false, dataErrorMsg, []⟩, cache, []⟩)
          = (⟨⟨false, dataErrorMsg, []⟩, cache, []⟩ : EndpointOutput)
        rw [hlook]
      rw [hstep]
      exact ⟨rfl, rfl, (by decide : dataErrorMsg ≠ "")⟩

/-- C8 witness: with every fetch failing, the netuid-without-hotkey
query gets the success=false empty-result envelope with a message. -/
theorem c8_no_data_witness :
    (get_tao_dividends regC8w emptyCache (some 3) "" false).envelope.success = false ∧
    (get_tao_dividends regC8w emptyCache (some 3) "" false).envelope.result = [] ∧
    (get_tao_dividends regC8w emptyCache (some 3) "" false).envelope.msg ≠ "" :=
  c8_no_data_envelope regC8w emptyCache (some 3) "" false
    (Or.inr (Or.inl ⟨3, rfl, rfl, rfl⟩))

/-- The endpoint tail returns whatever cache it is handed. -/
theorem respond_cache_eq (cache' : Cache) (nhd : List (Int × List (String × PyVal)))
    (msg : String) (trade cached : Bool) :
    (respond cache' nhd msg trade cached).cache = cache' := by
  unfold respond
  split <;> rfl

/-- C10: a single-key query that misses the cache writes at most the one
key `{netuid}:{hotkey}`: every other cache key still maps to exactly the
value it had before the call, whatever other hotkeys the fetched subnet
map contained and whatever other subnets exist. -/
theorem c10_single_key_miss_frame (reg : Registry) (cache : Cache) (n : Int)
    (hk : String) (trade : Bool) (k : String)
    (hhk : hk ≠ "") (hmiss : cache (cacheKey n hk) = none)
    (hne : k ≠ cacheKey n hk) :
    (get_tao_dividends reg cache (some n) hk trade).cache k = cache k := by
  simp only [get_tao_dividends]
  rw [if_neg hhk, hmiss]
  cases hd : reg.dividends n with
  | none => rfl
  | some m =>
    show (match m.lookup hk with
      | some q => respond (cache.set (cacheKey n hk) q)
          [(n, [(hk, PyVal.num q)])] "" trade false
      | none => ⟨⟨false, dataErrorMsg, []⟩, cache, []⟩).cache k = cache k
    cases hl : m.lookup hk with
    | none => rfl
    | some q =>
      show (respond (cache.set (cacheKey n hk) q)
        [(n, [(hk, PyVal.num q)])] "" trade false).cache k = cache k
      rw [respond_cache_eq]
      unfold Cache.set
      rw [if_neg hne]

/-- C10 witness: after the miss on (1, "hk") populated "1:hk", the
unrelated key "2:zz" is unchanged. -/
theorem c10_frame_witness :
    (get_tao_dividends regC1 emptyCache (some 1) "hk" false).cache "2:zz"
      = emptyCache "2:zz" :=
  c10_single_key_miss_frame regC1 emptyCache 1 "hk" false "2:zz"
    (by decide) rfl (by decide)

end TaoService
